import Mathlib

/-!
Verification of the Bangalore vendor collector core
(`bangalore_vendor_scraper.py`): phone normalization, record
extraction, and key-based deduplication.

Python strings are embedded as `List Char`; pandas DataFrames as a
list of rows together with the list of column labels (only the two
columns the deduplication code accesses are relevant).
-/

/-- Python strings, embedded as lists of characters. -/
abbrev PyStr := List Char

/-- Convert a Lean string literal to the embedding type. -/
def strL (s : String) : PyStr := s.toList

/-- ASCII lowercasing of one character (Python `str.lower` restricted to
the ASCII inputs the program manipulates). -/
def pyLowerChar (c : Char) : Char :=
  if 'A' ≤ c && c ≤ 'Z' then Char.ofNat (c.toNat + 32) else c

/-- Python `str.lower`. -/
def pyLower (s : PyStr) : PyStr := s.map pyLowerChar

/-- Python `str.strip()`: drop whitespace from both ends. -/
def pyStrip (s : PyStr) : PyStr :=
  ((s.dropWhile Char.isWhitespace).reverse.dropWhile Char.isWhitespace).reverse

/-- Python `str.lstrip('0')`: drop every leading `'0'`. -/
def stripZeros : PyStr → PyStr
  | [] => []
  | c :: rest => if c == '0' then stripZeros rest else c :: rest

/-- `hasPre p s` is true when `p` is an initial segment of `s`. -/
def hasPre : PyStr → PyStr → Bool
  | [], _ => true
  | _ :: _, [] => false
  | p :: ps, c :: cs => p == c && hasPre ps cs

/-- Python substring containment (`pat in s`). -/
def containsSub (pat : PyStr) : PyStr → Bool
  | [] => hasPre pat []
  | c :: rest => hasPre pat (c :: rest) || containsSub pat rest

/-- Scanner for `pyReplace`; `fuel` bounds the number of steps.  Each
step consumes at least one character, so `fuel = s.length` always
suffices. -/
def pyReplaceAux (pat repl : PyStr) : Nat → PyStr → PyStr
  | _, [] => []
  | 0, s => s
  | fuel + 1, c :: rest =>
    if 0 < pat.length && hasPre pat (c :: rest) then
      repl ++ pyReplaceAux pat repl fuel (rest.drop (pat.length - 1))
    else
      c :: pyReplaceAux pat repl fuel rest

/-- Python `s.replace(pat, repl)`: replace every non-overlapping
occurrence of `pat`, scanning left to right. -/
def pyReplace (pat repl s : PyStr) : PyStr := pyReplaceAux pat repl s.length s

/-- The characters kept by the cleaning regex `[^\d+]` in
`validate_phone`: digits and every plus sign. -/
def isPhoneChar (c : Char) : Bool := c.isDigit || c == '+'

/-- Python truthiness of an `Optional[str]`: `None` and `""` are falsy. -/
def pyTruthy : Option PyStr → Bool
  | none => false
  | some s => !s.isEmpty

/-- Python `a or b` for `a : Optional[str]`, `b` a string. -/
def orElseStr (a : Option PyStr) (b : PyStr) : PyStr :=
  match a with
  | none => b
  | some s => if s.isEmpty then b else s

example : pyLower (strL "AbC Z") = strL "abc z" := by decide
example : pyStrip (strL "  Acme Tents ") = strL "Acme Tents" := by decide
example : stripZeros (strL "00987") = strL "987" := by decide
example : containsSub (strL "permanently closed") (strL "is permanently closed now") = true := by
  decide
example : pyReplace (strL " Bangalore") [] (strL "Tent House Bangalore") = strL "Tent House" := by
  decide
example :
    pyReplace (strL " Bangalore") [] (strL "Event Bangalore Caterers Bangalore")
      = strL "Event Caterers" := by decide

/-!
## Phone model

Modelled from the spec: the `phonenumbers` library used by
`validate_phone` is an external dependency, not part of this
repository.  Its behaviour for region "IN" is modelled here from the
spec's statements: parsing with a default region, stripping of the
national prefix `0`, stripping of a redundant leading country code
`91` when the remainder is valid and the full number is not, validity
patterns for the relevant Indian line types (mobile, fixed-line,
toll-free, premium-rate), and E.164 formatting.  A candidate is only
parseable when its characters are digits with at most one leading
plus sign.
-/

/-- Line types distinguished by the model (the subset of
`phonenumbers.PhoneNumberType` the program mentions). -/
inductive PhoneType where
  | MOBILE
  | FIXED_LINE
  | FIXED_LINE_OR_MOBILE
  | TOLL_FREE
  | PREMIUM_RATE
  | UNKNOWN
deriving DecidableEq, BEq

/-- A parsed phone number: country code plus national significant
number (digits, leading zeros removed). -/
structure ParsedIN where
  countryCode : Nat
  nationalNumber : PyStr
deriving DecidableEq

/-- True when the first character of `l` is one of `cs`. -/
def firstDigitIn (l : PyStr) (cs : List Char) : Bool :=
  match l with
  | [] => false
  | c :: _ => cs.contains c

/-- Modelled from the spec: Indian mobile numbers are ten digits
starting with 6, 7, 8 or 9. -/
def isMobileIN (nn : PyStr) : Bool :=
  nn.length == 10 && nn.all Char.isDigit && firstDigitIn nn ['6', '7', '8', '9']

/-- Modelled from the spec: Indian fixed-line numbers (area code plus
subscriber number) are ten digits starting with 2, 3, 4 or 5. -/
def isFixedLineIN (nn : PyStr) : Bool :=
  nn.length == 10 && nn.all Char.isDigit && firstDigitIn nn ['2', '3', '4', '5']

/-- Modelled from the spec: Indian toll-free numbers are eleven digits
starting with 1800. -/
def isTollFreeIN (nn : PyStr) : Bool :=
  nn.length == 11 && nn.all Char.isDigit && hasPre (strL "1800") nn

/-- Modelled from the spec: Indian premium-rate numbers are eleven
digits starting with 1860. -/
def isPremiumRateIN (nn : PyStr) : Bool :=
  nn.length == 11 && nn.all Char.isDigit && hasPre (strL "1860") nn

/-- Structural validity of a national significant number for region IN. -/
def isValidNN (nn : PyStr) : Bool :=
  isMobileIN nn || isFixedLineIN nn || isTollFreeIN nn || isPremiumRateIN nn

/-- The line type of a national significant number for region IN. -/
def numberTypeNN (nn : PyStr) : PhoneType :=
  if isMobileIN nn then .MOBILE
  else if isFixedLineIN nn then .FIXED_LINE
  else if isTollFreeIN nn then .TOLL_FREE
  else if isPremiumRateIN nn then .PREMIUM_RATE
  else .UNKNOWN

/-- Modelled from the spec: `phonenumbers.parse(candidate, "IN")`.
Fails (raising `NumberParseException`) on an empty string, on any
non-digit character after a leading plus, and on any candidate mixing
digits with an interior plus sign.  For a candidate with a leading
`+91`, the remainder is the national number.  For a bare digit string,
the national prefix `0` is stripped; a leading `91` is stripped as the
country code exactly when the full digit string is not itself valid
but the remainder is. -/
def parseIN : PyStr → Option ParsedIN
  | [] => none
  | c :: rest =>
    if c = '+' then
      match rest with
      | '9' :: '1' :: nn =>
        if nn.all Char.isDigit then some ⟨91, stripZeros nn⟩ else none
      | _ => none
    else
      if (c :: rest).all Char.isDigit then
        if (c :: rest).take 2 = ['9', '1']
            ∧ isValidNN (c :: rest) = false
            ∧ isValidNN (stripZeros ((c :: rest).drop 2)) = true then
          some ⟨91, stripZeros ((c :: rest).drop 2)⟩
        else
          some ⟨91, stripZeros (c :: rest)⟩
      else none

/-- `phonenumbers.is_valid_number` for a parsed number (model: region
IN only). -/
def isValidNumber (p : ParsedIN) : Bool :=
  p.countryCode == 91 && isValidNN p.nationalNumber

/-- `phonenumbers.number_type` for a parsed number. -/
def numberType (p : ParsedIN) : PhoneType := numberTypeNN p.nationalNumber

/-- `phonenumbers.format_number(parsed, PhoneNumberFormat.E164)`. -/
def formatE164 (p : ParsedIN) : PyStr := '+' :: '9' :: '1' :: p.nationalNumber

/-- The `valid_types` set built inside `validate_phone`. -/
def validTypes : List PhoneType :=
  [.MOBILE, .FIXED_LINE, .FIXED_LINE_OR_MOBILE]

/-- Whether a parsed number's line type is in `valid_types`. -/
def typeOk (p : ParsedIN) : Bool := validTypes.contains (numberType p)

/-- The loop body of `validate_phone`: try each candidate in order; a
parse failure or a failed validity or line-type check moves on to the
next candidate; the first candidate passing every check returns its
E.164 formatting. -/
def tryCandidates : List PyStr → Option PyStr
  | [] => none
  | cand :: rest =>
    match parseIN cand with
    | none => tryCandidates rest
    | some p =>
      if isValidNumber p && typeOk p then some (formatE164 p)
      else tryCandidates rest

/-- `validate_phone` from `bangalore_vendor_scraper.py`: returns the
E.164 Indian phone number, or `none` if invalid.  `if not raw` catches
both `None` and the empty string; the cleaning step is
`re.sub(r"[^\d+]", "", raw)`; the candidates are the cleaned string
and `+91` followed by the cleaned string with leading zeros stripped. -/
def validate_phone (raw : Option PyStr) : Option PyStr :=
  match raw with
  | none => none
  | some s =>
    if s.isEmpty then none
    else
      let cleaned := s.filter isPhoneChar
      tryCandidates [cleaned, '+' :: '9' :: '1' :: stripZeros cleaned]

example : validate_phone (some (strL "098765 43210")) = some (strL "+919876543210") := by decide
example : validate_phone (some (strL "9876543210")) = some (strL "+919876543210") := by decide
example : validate_phone (some (strL "+91 98765 43210")) = some (strL "+919876543210") := by decide
example : validate_phone (some (strL "91 98765 43210")) = some (strL "+919876543210") := by decide
example : validate_phone (some (strL "1800 123 4567")) = none := by decide
example : validate_phone (some (strL "98765+43210")) = none := by decide
example : validate_phone (some (strL "abc")) = none := by decide
example : validate_phone none = none := by decide

/-!
## Spec-side phone normalization

Definitions following the spec's words (for comparison with
`validate_phone`): a single attempt = parse, validity check, line-type
check, E.164 format; two attempts in order, first success wins.
-/

/-- One normalization attempt as the spec describes it: the candidate
must parse, be valid for region IN, and have an allowed line type;
then its E.164 formatting is returned. -/
def specAttempt (cand : PyStr) : Option PyStr :=
  match parseIN cand with
  | none => none
  | some p => if isValidNumber p && typeOk p then some (formatE164 p) else none

/-- The spec's two attempts, in order, on an already-cleaned string:
(1) the cleaned string as-is, (2) the cleaned string with leading
zeros stripped and `+91` prepended; the first success wins and no
further attempt is made. -/
def specTwoAttempts (cleaned : PyStr) : Option PyStr :=
  match specAttempt cleaned with
  | some r => some r
  | none => specAttempt ('+' :: '9' :: '1' :: stripZeros cleaned)

/-- The spec's cleaning step, read literally: keep the digits and a
leading plus sign only (a plus sign anywhere else is stripped). -/
def cleanSpecLeading (raw : PyStr) : PyStr :=
  match raw with
  | [] => []
  | c :: rest =>
    if c == '+' then '+' :: rest.filter Char.isDigit
    else (c :: rest).filter Char.isDigit

/-- Phone normalization exactly as the spec words it (claim C3 as
stated): clean keeping digits and a leading plus only, then the two
attempts. -/
def normSpecLeading (raw : PyStr) : Option PyStr :=
  if raw.isEmpty then none else specTwoAttempts (cleanSpecLeading raw)

/-- Phone normalization as the spec words it with the cleaning step
amended to keep every plus sign (what the code's regex actually
keeps). -/
def normSpecAmended (raw : PyStr) : Option PyStr :=
  if raw.isEmpty then none else specTwoAttempts (raw.filter isPhoneChar)

example : normSpecLeading (strL "98765+43210") = some (strL "+919876543210") := by decide
example : normSpecAmended (strL "98765+43210") = none := by decide

/-!
## Record extraction
-/

/-- One raw SerpAPI listing, restricted to the keys `extract_record`
reads.  `permanentlyClosed` is the truthiness of
`place.get("permanently_closed")`; each `Option` field is
present-or-absent in the dict; `rating` is carried as text since the
program never computes with it before export. -/
structure Place where
  permanentlyClosed : Bool
  status : Option PyStr
  phone : Option PyStr
  title : Option PyStr
  address : Option PyStr
  website : Option PyStr
  linksWebsite : Option PyStr
  rating : Option PyStr
  reviews : Option Int
  link : Option PyStr
deriving DecidableEq

/-- The record dict built by `extract_record`, one field per key. -/
structure VendorRecord where
  category : PyStr
  businessName : PyStr
  phoneE164 : PyStr
  phoneValid : PyStr
  address : PyStr
  rating : PyStr
  totalReviews : Int
  website : PyStr
  mapsLink : PyStr
  dateCollected : PyStr
deriving DecidableEq

/-- The placeholder `"N/A"`. -/
def strNA : PyStr := strL "N/A"

/-- The phone placeholder `"Not Available"`. -/
def strNotAvailable : PyStr := strL "Not Available"

/-- The flag value `"Yes"`. -/
def strYes : PyStr := strL "Yes"

/-- The flag value `"No"`. -/
def strNo : PyStr := strL "No"

/-- The closed-business indicator searched for in the status field. -/
def permClosedIndicator : PyStr := strL "permanently closed"

/-- The region qualifier removed from category labels (note the
leading space, as in `category.replace(" Bangalore", "")`). -/
def bangaloreQualifier : PyStr := strL " Bangalore"

/-- `extract_record` from `bangalore_vendor_scraper.py`.  `today` is
the module-level `TODAY` date stamp.  Returns `none` for permanently
closed listings; otherwise builds the record dict, modelling Python
truthiness in the `or` fallbacks (`validated_phone or "Not
Available"`, the website fallback chain) via `orElseStr`. -/
def extract_record (today : PyStr) (place : Place) (category : PyStr) :
    Option VendorRecord :=
  if place.permanentlyClosed
      || containsSub permClosedIndicator (pyLower (place.status.getD [])) then
    none
  else
    let validatedPhone := validate_phone place.phone
    let website := orElseStr place.website (place.linksWebsite.getD strNA)
    some {
      category := pyStrip (pyReplace bangaloreQualifier [] category)
      businessName := place.title.getD strNA
      phoneE164 := orElseStr validatedPhone strNotAvailable
      phoneValid := if pyTruthy validatedPhone then strYes else strNo
      address := place.address.getD strNA
      rating := place.rating.getD strNA
      totalReviews := place.reviews.getD 0
      website := if website.isEmpty then strNA else website
      mapsLink := place.link.getD strNA
      dateCollected := today
    }

/-- `s.take (s.length - pat.length)` when `pat` is a suffix of `s`,
else `s`: removal of one trailing occurrence only. -/
def removeTrailingOnly (pat s : PyStr) : PyStr :=
  if hasPre pat.reverse s.reverse then s.take (s.length - pat.length) else s

/-- The category transformation as the spec words it for claim C9:
only a trailing region qualifier removed, then whitespace trimmed. -/
def specCategoryTrailing (category : PyStr) : PyStr :=
  pyStrip (removeTrailingOnly bangaloreQualifier category)

example :
    specCategoryTrailing (strL "Event Bangalore Caterers Bangalore")
      = strL "Event Bangalore Caterers" := by decide

/-!
## Deduplication

A pandas DataFrame is embedded as its column-label list plus its row
list; `df.empty` is "no rows or no columns"; accessing a missing
column raises `KeyError`, modelled with `Except`.
-/

/-- A DataFrame: column labels plus rows. -/
structure Frame where
  columns : List PyStr
  rows : List VendorRecord
deriving DecidableEq

/-- pandas `df.empty`: true when the frame has no rows or no columns. -/
def Frame.isEmpty (df : Frame) : Bool := df.rows.isEmpty || df.columns.isEmpty

/-- The column label `"Business Name"`. -/
def colBusinessName : PyStr := strL "Business Name"

/-- The column label `"Address"`. -/
def colAddress : PyStr := strL "Address"

/-- Whether the frame has both columns `make_key` accesses. -/
def hasKeyCols (df : Frame) : Bool :=
  df.columns.contains colBusinessName && df.columns.contains colAddress

/-- The Identity Key of one row:
`name.lower().strip() + "||" + address.lower().strip()`. -/
def rowKey (r : VendorRecord) : PyStr :=
  pyStrip (pyLower r.businessName) ++ strL "||" ++ pyStrip (pyLower r.address)

/-- The pandas error raised when a column access fails. -/
inductive DedupError where
  | keyError
deriving DecidableEq

/-- `make_key` from `deduplicate`: the keys of every row, or a
`KeyError` when either accessed column is missing. -/
def make_key (df : Frame) : Except DedupError (List PyStr) :=
  if hasKeyCols df then .ok (df.rows.map rowKey) else .error .keyError

/-- `deduplicate` from `bangalore_vendor_scraper.py`: if the existing
frame is empty, the new frame passes through; otherwise keys are
computed for both frames (existing first, as in the source), each new
row is kept iff its key is absent from the existing keys, and the
duplicate count is the number of mask entries that are false. -/
def deduplicate (new_df existing_df : Frame) :
    Except DedupError (Frame × Nat × Nat) :=
  if existing_df.isEmpty then .ok (new_df, new_df.rows.length, 0)
  else
    match make_key existing_df with
    | .error e => .error e
    | .ok existingKeys =>
      match make_key new_df with
      | .error e => .error e
      | .ok newKeys =>
        let isNew := newKeys.map (fun k => !(existingKeys.contains k))
        let kept := (new_df.rows.zip isNew).filterMap
          (fun rb => if rb.2 then some rb.1 else none)
        let dupCount := isNew.countP (fun b => !b)
        .ok (⟨new_df.columns, kept⟩, kept.length, dupCount)

/-- Column-label union used by `pd.concat`: the first frame's labels,
then the second's labels not already present. -/
def unionCols (l1 l2 : List PyStr) : List PyStr :=
  l1 ++ l2.filter (fun c => !(l1.contains c))

/-- `pd.concat([a, b], ignore_index=True)`. -/
def concatFrames (a b : Frame) : Frame :=
  ⟨unionCols a.columns b.columns, a.rows ++ b.rows⟩

/-- A vendor record with the given name and address and empty
remaining fields (scenario helper). -/
def mkRec (name addr : PyStr) : VendorRecord :=
  { category := [], businessName := name, phoneE164 := [], phoneValid := [],
    address := addr, rating := [], totalReviews := 0, website := [],
    mapsLink := [], dateCollected := [] }

example :
    deduplicate
      ⟨[colBusinessName, colAddress],
        [mkRec (strL "X") (strL "Y"), mkRec (strL "Z") (strL "W")]⟩
      ⟨[colBusinessName, colAddress], [mkRec (strL "X") (strL "Y")]⟩
    = .ok (⟨[colBusinessName, colAddress], [mkRec (strL "Z") (strL "W")]⟩, 1, 1) := by
  rfl

/-!
## Helper lemmas
-/

theorem contains_rowKey_append_right (pre l : List VendorRecord) (r : VendorRecord)
    (hr : r ∈ l) : ((pre ++ l).map rowKey).contains (rowKey r) = true := by
  have h1 : rowKey r ∈ (pre ++ l).map rowKey := by
    apply List.mem_map_of_mem
    exact List.mem_append_right pre hr
  exact List.elem_iff.mpr h1

theorem filter_not_contains_self (pre l : List VendorRecord) :
    (l.filter fun r => !(((pre ++ l).map rowKey).contains (rowKey r))) = [] := by
  apply List.filter_eq_nil_iff.mpr
  intro r hr
  rw [contains_rowKey_append_right pre l r hr]
  simp

theorem countP_contains_self (pre l : List VendorRecord) :
    (l.countP fun r => ((pre ++ l).map rowKey).contains (rowKey r)) = l.length := by
  apply List.countP_eq_length.mpr
  intro r hr
  exact contains_rowKey_append_right pre l r hr

theorem zip_mask_filter (l : List VendorRecord) (q : VendorRecord → Bool) :
    ((l.zip (l.map q)).filterMap fun rb => if rb.2 then some rb.1 else none)
      = l.filter q := by
  induction l with
  | nil => rfl
  | cons a t ih =>
    simp only [List.map_cons, List.zip_cons_cons, List.filterMap_cons, List.filter_cons]
    cases hq : q a <;> simp [hq, ih]

theorem deduplicate_nonempty (new_df existing_df : Frame)
    (hne : existing_df.isEmpty = false)
    (hex : hasKeyCols existing_df = true)
    (hnew : hasKeyCols new_df = true) :
    deduplicate new_df existing_df =
      .ok (⟨new_df.columns,
            new_df.rows.filter fun r =>
              !((existing_df.rows.map rowKey).contains (rowKey r))⟩,
           (new_df.rows.filter fun r =>
              !((existing_df.rows.map rowKey).contains (rowKey r))).length,
           new_df.rows.countP fun r =>
             (existing_df.rows.map rowKey).contains (rowKey r)) := by
  simp only [deduplicate, make_key, hne, hex, hnew, Bool.false_eq_true, if_false, if_true,
    List.map_map]
  rw [zip_mask_filter new_df.rows
    ((fun k => !((existing_df.rows.map rowKey).contains k)) ∘ rowKey)]
  rw [List.countP_map]
  have hc : ((fun b => !b) ∘ (fun k => !((existing_df.rows.map rowKey).contains k)) ∘ rowKey)
      = (fun r => (existing_df.rows.map rowKey).contains (rowKey r)) := by
    funext r
    simp [Function.comp, Bool.not_not]
  rw [hc]
  rfl

/-!
## Claim theorems: deduplication
-/

/-- C1: against a non-empty historical batch, with the key columns
present in both frames, `deduplicate` keeps exactly those new rows
whose Identity Key is absent from the historical key set: the result
rows are the filter of the new rows by that condition (so every copy
of a within-batch duplicate survives when its key is not historical),
and a record is retained iff its key is not among the historical
keys. -/
theorem C1_dedup_retains_iff_key_absent (new_df existing_df : Frame)
    (hne : existing_df.isEmpty = false)
    (hex : hasKeyCols existing_df = true)
    (hnew : hasKeyCols new_df = true) :
    ∃ res newCount dupCount,
      deduplicate new_df existing_df = .ok (res, newCount, dupCount)
      ∧ res.rows = new_df.rows.filter
          (fun r => !((existing_df.rows.map rowKey).contains (rowKey r)))
      ∧ ∀ r : VendorRecord,
          r ∈ res.rows ↔ r ∈ new_df.rows ∧ rowKey r ∉ existing_df.rows.map rowKey := by
  refine ⟨_, _, _, deduplicate_nonempty new_df existing_df hne hex hnew, rfl, ?_⟩
  intro r
  simp [List.mem_filter, List.elem_iff]

/-- Witness for C1: the spec's scenario — history `{X, Y}`, new batch
`[{X, Y}, {Z, W}]`; the result keeps exactly `{Z, W}`. -/
theorem C1_dedup_retains_iff_key_absent_witness :
    ∃ res newCount dupCount,
      deduplicate
        ⟨[colBusinessName, colAddress],
          [mkRec (strL "X") (strL "Y"), mkRec (strL "Z") (strL "W")]⟩
        ⟨[colBusinessName, colAddress], [mkRec (strL "X") (strL "Y")]⟩
        = .ok (res, newCount, dupCount)
      ∧ res.rows = [mkRec (strL "Z") (strL "W")]
      ∧ mkRec (strL "Z") (strL "W") ∈ res.rows
      ∧ mkRec (strL "X") (strL "Y") ∉ res.rows := by
  obtain ⟨res, n, d, heq, hrows, hmem⟩ :=
    C1_dedup_retains_iff_key_absent
      ⟨[colBusinessName, colAddress],
        [mkRec (strL "X") (strL "Y"), mkRec (strL "Z") (strL "W")]⟩
      ⟨[colBusinessName, colAddress], [mkRec (strL "X") (strL "Y")]⟩
      (by rfl) (by decide) (by decide)
  refine ⟨res, n, d, heq, ?_, ?_, ?_⟩
  · rw [hrows]; rfl
  · rw [hrows]; decide
  · rw [hrows]; decide

/-- C6: with an empty historical frame, `deduplicate` returns the new
frame itself (same records, same order), its length, and zero
duplicates. -/
theorem C6_dedup_empty_history (new_df existing_df : Frame)
    (h : existing_df.isEmpty = true) :
    deduplicate new_df existing_df = .ok (new_df, new_df.rows.length, 0) := by
  simp [deduplicate, h]

/-- Witness for C6 at a one-record batch and the empty frame. -/
theorem C6_dedup_empty_history_witness :
    (⟨[], []⟩ : Frame).isEmpty = true
    ∧ deduplicate ⟨[colBusinessName, colAddress], [mkRec (strL "X") (strL "Y")]⟩
        (⟨[], []⟩ : Frame)
        = .ok (⟨[colBusinessName, colAddress], [mkRec (strL "X") (strL "Y")]⟩, 1, 0) :=
  ⟨rfl, C6_dedup_empty_history _ _ rfl⟩

/-- C7: Identity Key comparison is case- and trim-insensitive — any
two records whose business names and addresses agree after lowercasing
and stripping have equal Identity Keys, whatever their other fields. -/
theorem C7_identity_key_case_trim_insensitive (r1 r2 : VendorRecord)
    (hname : pyStrip (pyLower r1.businessName) = pyStrip (pyLower r2.businessName))
    (haddr : pyStrip (pyLower r1.address) = pyStrip (pyLower r2.address)) :
    rowKey r1 = rowKey r2 := by
  simp [rowKey, hname, haddr]

/-- Witness for C7: the spec's pair `{Acme Tents , MG Road}` and
`{acme tents, mg road}` are duplicates of each other. -/
theorem C7_identity_key_case_trim_insensitive_witness :
    pyStrip (pyLower (mkRec (strL "Acme Tents ") (strL "MG Road")).businessName)
      = pyStrip (pyLower (mkRec (strL "acme tents") (strL "mg road")).businessName)
    ∧ pyStrip (pyLower (mkRec (strL "Acme Tents ") (strL "MG Road")).address)
      = pyStrip (pyLower (mkRec (strL "acme tents") (strL "mg road")).address)
    ∧ rowKey (mkRec (strL "Acme Tents ") (strL "MG Road"))
      = rowKey (mkRec (strL "acme tents") (strL "mg road")) :=
  ⟨by decide, by decide,
    C7_identity_key_case_trim_insensitive _ _ (by decide) (by decide)⟩

/-- C10: `deduplicate` requires the business-name and address columns
on the new frame: for the column-less empty frame a zero-record run
produces, and any non-empty historical frame (with its own key
columns), the key computation fails with a `KeyError` instead of
returning an empty result. -/
theorem C10_dedup_missing_columns_error (existing_df : Frame)
    (hne : existing_df.isEmpty = false)
    (hex : hasKeyCols existing_df = true) :
    deduplicate (⟨[], []⟩ : Frame) existing_df = .error .keyError := by
  have hmk : make_key existing_df = .ok (existing_df.rows.map rowKey) := by
    simp [make_key, hex]
  have hmk2 : make_key (⟨[], []⟩ : Frame) = .error .keyError := by rfl
  simp [deduplicate, hne, hmk, hmk2]

/-- Witness for C10 at a one-record historical frame. -/
theorem C10_dedup_missing_columns_error_witness :
    (⟨[colBusinessName, colAddress], [mkRec (strL "X") (strL "Y")]⟩ : Frame).isEmpty = false
    ∧ deduplicate (⟨[], []⟩ : Frame)
        ⟨[colBusinessName, colAddress], [mkRec (strL "X") (strL "Y")]⟩
        = .error .keyError :=
  ⟨rfl, C10_dedup_missing_columns_error _ rfl (by decide)⟩

/-!
## Idempotence of deduplication (C2)
-/

theorem contains_unionCols_left (l1 l2 : List PyStr) (c : PyStr)
    (h : l1.contains c = true) : (unionCols l1 l2).contains c = true := by
  rw [List.elem_iff] at h ⊢
  exact List.mem_append_left _ h

theorem contains_unionCols_right (l1 l2 : List PyStr) (c : PyStr)
    (h : l2.contains c = true) : (unionCols l1 l2).contains c = true := by
  rw [List.elem_iff] at h ⊢
  unfold unionCols
  by_cases hc : c ∈ l1
  · exact List.mem_append_left _ hc
  · refine List.mem_append_right _ (List.mem_filter.mpr ⟨h, ?_⟩)
    cases hb : l1.contains c
    · rfl
    · exact absurd (List.elem_iff.mp hb) hc

theorem hasKeyCols_concat_left (a b : Frame) (h : hasKeyCols a = true) :
    hasKeyCols (concatFrames a b) = true := by
  unfold hasKeyCols at h ⊢
  rw [Bool.and_eq_true] at h ⊢
  exact ⟨contains_unionCols_left _ _ _ h.1, contains_unionCols_left _ _ _ h.2⟩

theorem hasKeyCols_concat_right (a b : Frame) (h : hasKeyCols b = true) :
    hasKeyCols (concatFrames a b) = true := by
  unfold hasKeyCols at h ⊢
  rw [Bool.and_eq_true] at h ⊢
  exact ⟨contains_unionCols_right _ _ _ h.1, contains_unionCols_right _ _ _ h.2⟩

theorem cols_nonempty_of_hasKeyCols (df : Frame) (h : hasKeyCols df = true) :
    df.columns.isEmpty = false := by
  unfold hasKeyCols at h
  rw [Bool.and_eq_true] at h
  have hm := List.elem_iff.mp h.1
  cases h2 : df.columns with
  | nil => exact absurd (h2 ▸ hm) (List.not_mem_nil _)
  | cons a t => rfl

theorem isEmpty_append_left (l1 l2 : List VendorRecord)
    (h : l1.isEmpty = false) : (l1 ++ l2).isEmpty = false := by
  cases l1 with
  | nil => exact absurd h (by simp)
  | cons a t => rfl

theorem isEmpty_append_right (l1 l2 : List VendorRecord)
    (h : l2.isEmpty = false) : (l1 ++ l2).isEmpty = false := by
  cases l1 with
  | nil => simpa using h
  | cons a t => rfl

theorem frame_isEmpty_false (df : Frame) (hr : df.rows.isEmpty = false)
    (hc : df.columns.isEmpty = false) : df.isEmpty = false := by
  unfold Frame.isEmpty
  rw [hr, hc]
  rfl

/-- Deduplicating any frame against a concatenation that includes its
own rows keeps nothing and counts every row as a duplicate. -/
theorem dedup_into_concat (histF resF : Frame)
    (hcols : hasKeyCols (concatFrames histF resF) = true)
    (hres : hasKeyCols resF = true)
    (hne : (concatFrames histF resF).isEmpty = false) :
    deduplicate resF (concatFrames histF resF)
      = .ok (⟨resF.columns, []⟩, 0, resF.rows.length) := by
  rw [deduplicate_nonempty resF (concatFrames histF resF) hne hcols hres]
  have h1 : (concatFrames histF resF).rows = histF.rows ++ resF.rows := rfl
  rw [h1, filter_not_contains_self, countP_contains_self]
  rfl

/-- C2: `deduplicate` is idempotent against its own output — running
it again on the genuinely-new result, against the concatenation of the
history with that result, keeps zero records and counts the whole
result as duplicates. -/
theorem C2_dedup_idempotent_against_output (b hist : Frame)
    (hb : hasKeyCols b = true)
    (hh : hist.isEmpty = false → hasKeyCols hist = true) :
    ∃ res newCount dupCount,
      deduplicate b hist = .ok (res, newCount, dupCount)
      ∧ ∃ res2,
          deduplicate res (concatFrames hist res) = .ok (res2, 0, res.rows.length)
          ∧ res2.rows = [] := by
  cases hE : hist.isEmpty with
  | true =>
    have h1 : deduplicate b hist = .ok (b, b.rows.length, 0) := by
      simp [deduplicate, hE]
    refine ⟨b, b.rows.length, 0, h1, ?_⟩
    cases hbre : b.rows.isEmpty with
    | true =>
      have hb0 : b.rows = [] := List.isEmpty_iff.mp hbre
      cases hCE : (concatFrames hist b).isEmpty with
      | true =>
        have h2 : deduplicate b (concatFrames hist b)
            = .ok (b, b.rows.length, 0) := by
          simp [deduplicate, hCE]
        refine ⟨b, ?_, hb0⟩
        rw [h2, hb0]
        rfl
      | false =>
        have hkc : hasKeyCols (concatFrames hist b) = true :=
          hasKeyCols_concat_right _ _ hb
        exact ⟨⟨b.columns, []⟩, by rw [dedup_into_concat hist b hkc hb hCE], rfl⟩
    | false =>
      have hkc : hasKeyCols (concatFrames hist b) = true :=
        hasKeyCols_concat_right _ _ hb
      have hCE : (concatFrames hist b).isEmpty = false :=
        frame_isEmpty_false _ (isEmpty_append_right hist.rows b.rows hbre)
          (cols_nonempty_of_hasKeyCols _ hkc)
      exact ⟨⟨b.columns, []⟩, by rw [dedup_into_concat hist b hkc hb hCE], rfl⟩
  | false =>
    have h1 := deduplicate_nonempty b hist hE (hh hE) hb
    refine ⟨_, _, _, h1, ?_⟩
    have hresk : hasKeyCols
        (⟨b.columns, b.rows.filter
          (fun r => !((hist.rows.map rowKey).contains (rowKey r)))⟩ : Frame) = true := hb
    have hkc : hasKeyCols
        (concatFrames hist
          ⟨b.columns, b.rows.filter
            (fun r => !((hist.rows.map rowKey).contains (rowKey r)))⟩) = true :=
      hasKeyCols_concat_left _ _ (hh hE)
    have hrowsne : hist.rows.isEmpty = false := by
      have h2 := hE
      unfold Frame.isEmpty at h2
      rw [Bool.or_eq_false_iff] at h2
      exact h2.1
    have hCE : (concatFrames hist
        ⟨b.columns, b.rows.filter
          (fun r => !((hist.rows.map rowKey).contains (rowKey r)))⟩).isEmpty = false :=
      frame_isEmpty_false _ (isEmpty_append_left _ _ hrowsne)
        (cols_nonempty_of_hasKeyCols _ hkc)
    exact ⟨⟨b.columns, []⟩, by rw [dedup_into_concat _ _ hkc hresk hCE], rfl⟩

/-- Witness for C2: the spec scenario batch against its history; the
re-run keeps nothing and flags the whole first result as duplicate. -/
theorem C2_dedup_idempotent_against_output_witness :
    ∃ res newCount dupCount,
      deduplicate
        ⟨[colBusinessName, colAddress],
          [mkRec (strL "X") (strL "Y"), mkRec (strL "Z") (strL "W")]⟩
        ⟨[colBusinessName, colAddress], [mkRec (strL "X") (strL "Y")]⟩
        = .ok (res, newCount, dupCount)
      ∧ ∃ res2,
          deduplicate res
            (concatFrames
              ⟨[colBusinessName, colAddress], [mkRec (strL "X") (strL "Y")]⟩ res)
            = .ok (res2, 0, res.rows.length)
          ∧ res2.rows = [] :=
  C2_dedup_idempotent_against_output
    ⟨[colBusinessName, colAddress],
      [mkRec (strL "X") (strL "Y"), mkRec (strL "Z") (strL "W")]⟩
    ⟨[colBusinessName, colAddress], [mkRec (strL "X") (strL "Y")]⟩
    (by decide) (fun _ => by decide)

/-!
## Claim theorems: record extraction
-/

theorem tryCandidates_plus (l : List PyStr) (s : PyStr)
    (h : tryCandidates l = some s) : ∃ t, s = '+' :: t := by
  induction l with
  | nil => simp [tryCandidates] at h
  | cons c rest ih =>
    unfold tryCandidates at h
    cases hp : parseIN c with
    | none =>
      rw [hp] at h
      exact ih h
    | some p =>
      rw [hp] at h
      have h2 : (if (isValidNumber p && typeOk p) = true then some (formatE164 p)
          else tryCandidates rest) = some s := h
      by_cases hv : (isValidNumber p && typeOk p) = true
      · rw [if_pos hv] at h2
        exact ⟨'9' :: '1' :: p.nationalNumber, (Option.some.inj h2).symm⟩
      · rw [if_neg hv] at h2
        exact ih h2

/-- Every value `validate_phone` returns starts with a plus sign. -/
theorem validate_phone_plus (raw : Option PyStr) (s : PyStr)
    (h : validate_phone raw = some s) : ∃ t, s = '+' :: t := by
  cases raw with
  | none => simp [validate_phone] at h
  | some r =>
    unfold validate_phone at h
    have h2 : (if r.isEmpty = true then none
        else tryCandidates [r.filter isPhoneChar,
          '+' :: '9' :: '1' :: stripZeros (r.filter isPhoneChar)]) = some s := h
    by_cases hr : r.isEmpty = true
    · rw [if_pos hr] at h2
      cases h2
    · rw [if_neg hr] at h2
      exact tryCandidates_plus _ _ h2

/-- C8: every record the extractor produces has its phone-validity
flag equal to `"Yes"` iff the phone field holds the normalizer's
value; when normalization fails the field is the placeholder
`"Not Available"` and the flag is `"No"`; and the placeholder is
distinct from every value the normalizer can return. -/
theorem C8_phone_flag_iff_canonical (today : PyStr) (place : Place)
    (category : PyStr) (r : VendorRecord)
    (h : extract_record today place category = some r) :
    ((r.phoneValid = strYes) ↔ validate_phone place.phone = some r.phoneE164)
    ∧ (validate_phone place.phone = none →
        r.phoneE164 = strNotAvailable ∧ r.phoneValid = strNo)
    ∧ (∀ s, validate_phone place.phone = some s → s ≠ strNotAvailable) := by
  unfold extract_record at h
  by_cases hc : (place.permanentlyClosed
      || containsSub permClosedIndicator (pyLower (place.status.getD []))) = true
  · rw [if_pos hc] at h
    cases h
  · rw [if_neg hc] at h
    have hrec := Option.some.inj h
    have h1 : r.phoneValid
        = (if pyTruthy (validate_phone place.phone) then strYes else strNo) := by
      rw [← hrec]
    have h2 : r.phoneE164 = orElseStr (validate_phone place.phone) strNotAvailable := by
      rw [← hrec]
    cases hv : validate_phone place.phone with
    | none =>
      rw [hv] at h1 h2
      simp only [pyTruthy, if_false, Bool.false_eq_true] at h1
      simp only [orElseStr] at h2
      exact ⟨⟨fun he => absurd (h1.symm.trans he) (by decide),
        fun he => Option.noConfusion he⟩,
        fun _ => ⟨h2, h1⟩, fun s hs => Option.noConfusion hs⟩
    | some s0 =>
      obtain ⟨t, ht⟩ := validate_phone_plus place.phone s0 hv
      have hs0 : s0.isEmpty = false := by rw [ht]; rfl
      rw [hv] at h1 h2
      simp only [pyTruthy, hs0, Bool.not_false, if_true] at h1
      simp only [orElseStr, hs0, Bool.false_eq_true, if_false] at h2
      refine ⟨⟨fun _ => ?_, fun _ => h1⟩, fun he => Option.noConfusion he,
        fun s hs heq => ?_⟩
      · rw [h2]
      · rw [← Option.some.inj hs, ht] at heq
        have hh : ('+' :: t).head? = strNotAvailable.head? := congrArg List.head? heq
        rw [show ('+' :: t).head? = some '+' from rfl] at hh
        exact absurd hh (by decide)

/-- An open listing with every optional field absent (scenario
helper). -/
def openPlace : Place :=
  { permanentlyClosed := false, status := none, phone := none, title := none,
    address := none, website := none, linksWebsite := none, rating := none,
    reviews := none, link := none }

/-- The listing used to witness C8: open, with the spec's sample
phone. -/
def c8WitnessPlace : Place := { openPlace with phone := some (strL "098765 43210") }

/-- The record the extractor produces for `c8WitnessPlace`. -/
def c8WitnessRecord : VendorRecord :=
  { category := strL "Event Caterers", businessName := strL "N/A",
    phoneE164 := strL "+919876543210", phoneValid := strL "Yes",
    address := strL "N/A", rating := strL "N/A", totalReviews := 0,
    website := strL "N/A", mapsLink := strL "N/A",
    dateCollected := strL "26-Feb-2026" }

/-- Witness for C8 at the spec's sample phone `"098765 43210"`. -/
theorem C8_phone_flag_iff_canonical_witness :
    extract_record (strL "26-Feb-2026") c8WitnessPlace (strL "Event Caterers Bangalore")
      = some c8WitnessRecord
    ∧ (((c8WitnessRecord.phoneValid = strYes) ↔
          validate_phone c8WitnessPlace.phone = some c8WitnessRecord.phoneE164)
       ∧ (validate_phone c8WitnessPlace.phone = none →
            c8WitnessRecord.phoneE164 = strNotAvailable
            ∧ c8WitnessRecord.phoneValid = strNo)
       ∧ (∀ s, validate_phone c8WitnessPlace.phone = some s →
            s ≠ strNotAvailable)) :=
  ⟨by decide,
    C8_phone_flag_iff_canonical (strL "26-Feb-2026") c8WitnessPlace
      (strL "Event Caterers Bangalore") c8WitnessRecord (by decide)⟩

/-- C9 as stated is false: `category.replace(" Bangalore", "")`
removes every occurrence of the region qualifier, not only a trailing
one.  At `"Event Bangalore Caterers Bangalore"` the extractor stores
`"Event Caterers"`, while removing only the trailing qualifier (the
claim) would give `"Event Bangalore Caterers"`. -/
theorem C9_counterexample_inner_qualifier_removed :
    (extract_record (strL "26-Feb-2026") openPlace
        (strL "Event Bangalore Caterers Bangalore")).map VendorRecord.category
      = some (strL "Event Caterers")
    ∧ specCategoryTrailing (strL "Event Bangalore Caterers Bangalore")
      = strL "Event Bangalore Caterers"
    ∧ (extract_record (strL "26-Feb-2026") openPlace
        (strL "Event Bangalore Caterers Bangalore")).map VendorRecord.category
      ≠ some (specCategoryTrailing (strL "Event Bangalore Caterers Bangalore")) := by
  refine ⟨by decide, by decide, by decide⟩

/-- C9 amended: the extractor sets the category field to the category
with every occurrence of the region qualifier `" Bangalore"` removed
and surrounding whitespace trimmed (not only a trailing
occurrence). -/
theorem C9_amended_category_replaces_all (today : PyStr) (place : Place)
    (category : PyStr) (r : VendorRecord)
    (h : extract_record today place category = some r) :
    r.category = pyStrip (pyReplace bangaloreQualifier [] category) := by
  unfold extract_record at h
  by_cases hc : (place.permanentlyClosed
      || containsSub permClosedIndicator (pyLower (place.status.getD []))) = true
  · rw [if_pos hc] at h
    cases h
  · rw [if_neg hc] at h
    rw [← Option.some.inj h]

/-- Witness for the amended C9 at the category `"Tent House
Bangalore"`. -/
theorem C9_amended_category_replaces_all_witness :
    extract_record (strL "26-Feb-2026") openPlace (strL "Tent House Bangalore")
      = some
        { category := strL "Tent House", businessName := strL "N/A",
          phoneE164 := strL "Not Available", phoneValid := strL "No",
          address := strL "N/A", rating := strL "N/A", totalReviews := 0,
          website := strL "N/A", mapsLink := strL "N/A",
          dateCollected := strL "26-Feb-2026" }
    ∧ (strL "Tent House" : PyStr)
      = pyStrip (pyReplace bangaloreQualifier [] (strL "Tent House Bangalore")) :=
  ⟨by decide,
    by
      have h := C9_amended_category_replaces_all (strL "26-Feb-2026") openPlace
        (strL "Tent House Bangalore")
        { category := strL "Tent House", businessName := strL "N/A",
          phoneE164 := strL "Not Available", phoneValid := strL "No",
          address := strL "N/A", rating := strL "N/A", totalReviews := 0,
          website := strL "N/A", mapsLink := strL "N/A",
          dateCollected := strL "26-Feb-2026" } (by decide)
      exact h⟩

/-!
## Claim theorems: phone normalization
-/

theorem all_phoneChar_of_digits (l : PyStr) (h : l.all Char.isDigit = true) :
    l.filter isPhoneChar = l := by
  apply List.filter_eq_self.mpr
  intro a ha
  have hd := List.all_eq_true.mp h a ha
  simp [isPhoneChar, hd]

theorem stripZeros_all (l : PyStr) (q : Char → Bool) (h : l.all q = true) :
    (stripZeros l).all q = true := by
  induction l with
  | nil => exact h
  | cons c rest ih =>
    rw [List.all_cons, Bool.and_eq_true] at h
    unfold stripZeros
    by_cases hc : (c == '0') = true
    · rw [if_pos hc]
      exact ih h.2
    · rw [if_neg hc, List.all_cons, Bool.and_eq_true]
      exact h

theorem stripZeros_cons_ne (c : Char) (l : PyStr) (h : (c == '0') = false) :
    stripZeros (c :: l) = c :: l := by
  unfold stripZeros
  rw [h]
  rfl

theorem stripZeros_idem (l : PyStr) : stripZeros (stripZeros l) = stripZeros l := by
  induction l with
  | nil => rfl
  | cons c rest ih =>
    by_cases hc : (c == '0') = true
    · have h1 : stripZeros (c :: rest) = stripZeros rest := by
        simp [stripZeros, hc]
      rw [h1]
      exact ih
    · have h1 : stripZeros (c :: rest) = c :: rest :=
        stripZeros_cons_ne c rest (Bool.eq_false_iff.mpr hc)
    -- after h1, both inner and outer applications collapse
      rw [h1]
      exact h1

/-- One step of the candidate loop equals one spec attempt followed by
the rest. -/
theorem tryCandidates_cons (c : PyStr) (rest : List PyStr) :
    tryCandidates (c :: rest) = (match specAttempt c with
      | some r => some r
      | none => tryCandidates rest) := by
  show (match parseIN c with
      | none => tryCandidates rest
      | some p => if (isValidNumber p && typeOk p) = true then some (formatE164 p)
          else tryCandidates rest)
    = (match specAttempt c with
      | some r => some r
      | none => tryCandidates rest)
  cases hp : parseIN c with
  | none =>
    have hs : specAttempt c = none := by
      unfold specAttempt
      rw [hp]
    rw [hs]
  | some p =>
    have hs : specAttempt c = (if (isValidNumber p && typeOk p) = true
        then some (formatE164 p) else none) := by
      unfold specAttempt
      rw [hp]
    rw [hs]
    by_cases hv : (isValidNumber p && typeOk p) = true
    · show (if (isValidNumber p && typeOk p) = true then some (formatE164 p)
          else tryCandidates rest)
        = (match (if (isValidNumber p && typeOk p) = true then some (formatE164 p)
            else none) with
          | some r => some r
          | none => tryCandidates rest)
      simp [hv]
    · show (if (isValidNumber p && typeOk p) = true then some (formatE164 p)
          else tryCandidates rest)
        = (match (if (isValidNumber p && typeOk p) = true then some (formatE164 p)
            else none) with
          | some r => some r
          | none => tryCandidates rest)
      simp [hv]

/-- C3 is false as stated: the cleaning regex `[^\d+]` keeps every
plus sign, not only a leading one.  At `"98765+43210"` the code keeps
the interior plus (both parse attempts then fail, result `none`),
while the spec's cleaning would drop it and normalize successfully. -/
theorem C3_counterexample_interior_plus :
    validate_phone (some (strL "98765+43210")) = none
    ∧ normSpecLeading (strL "98765+43210") = some (strL "+919876543210")
    ∧ validate_phone (some (strL "98765+43210")) ≠ normSpecLeading (strL "98765+43210")
    ∧ (strL "98765+43210").filter isPhoneChar ≠ cleanSpecLeading (strL "98765+43210") :=
  ⟨by decide, by decide, by decide, by decide⟩

/-- C3 amended: for every non-empty raw string, `validate_phone`
equals the spec's procedure — clean (keeping digits and every plus
sign), then exactly two attempts in order, first success wins — as
written in `normSpecAmended`. -/
theorem C3_amended_two_attempts_first_wins (raw : PyStr) (h : raw ≠ []) :
    validate_phone (some raw) = normSpecAmended raw := by
  have hne : raw.isEmpty = false := by
    cases raw with
    | nil => exact absurd rfl h
    | cons a t => rfl
  unfold validate_phone normSpecAmended specTwoAttempts
  simp only [hne, Bool.false_eq_true, if_false]
  rw [tryCandidates_cons]
  cases specAttempt (raw.filter isPhoneChar) with
  | some r => rfl
  | none =>
    rw [tryCandidates_cons]
    cases specAttempt ('+' :: '9' :: '1' :: stripZeros (raw.filter isPhoneChar)) with
    | some r => rfl
    | none => rfl

/-- Witness for the amended C3 at the spec's sample raw phone. -/
theorem C3_amended_two_attempts_first_wins_witness :
    (strL "098765 43210" : PyStr) ≠ []
    ∧ validate_phone (some (strL "098765 43210")) = normSpecAmended (strL "098765 43210") :=
  ⟨by decide, C3_amended_two_attempts_first_wins (strL "098765 43210") (by decide)⟩

/-- Reduction of `parseIN` on a non-empty candidate. -/
theorem parseIN_cons (c : Char) (rest : PyStr) :
    parseIN (c :: rest)
      = (if c = '+' then
          (match rest with
            | '9' :: '1' :: nn =>
              if nn.all Char.isDigit = true then some ⟨91, stripZeros nn⟩ else none
            | _ => none)
        else
          if (c :: rest).all Char.isDigit = true then
            if (c :: rest).take 2 = ['9', '1']
                ∧ isValidNN (c :: rest) = false
                ∧ isValidNN (stripZeros ((c :: rest).drop 2)) = true then
              some ⟨91, stripZeros ((c :: rest).drop 2)⟩
            else some ⟨91, stripZeros (c :: rest)⟩
          else none) := rfl

/-- When the cleaned string is the raw string itself and its parse
passes validity and line-type checks, `validate_phone` returns its
E.164 formatting from the first attempt. -/
theorem validate_phone_first_success (s : PyStr) (p : ParsedIN)
    (hne : s.isEmpty = false)
    (hfil : s.filter isPhoneChar = s)
    (hp : parseIN s = some p)
    (hok : (isValidNumber p && typeOk p) = true) :
    validate_phone (some s) = some (formatE164 p) := by
  unfold validate_phone
  simp only [hne, Bool.false_eq_true, if_false]
  rw [hfil, tryCandidates_cons]
  have hs : specAttempt s = some (formatE164 p) := by
    show (match parseIN s with
      | none => none
      | some p => if (isValidNumber p && typeOk p) = true
          then some (formatE164 p) else none) = some (formatE164 p)
    rw [hp]
    show (if (isValidNumber p && typeOk p) = true
        then some (formatE164 p) else none) = some (formatE164 p)
    rw [if_pos hok]
  rw [hs]

/-- C4: a valid ten-digit Indian mobile number normalizes to the same
E.164 value in all four input variants — bare, `0`-prefixed,
`+91`-prefixed and bare-`91`-prefixed. -/
theorem C4_mobile_prefix_variants_agree (d : PyStr) (h : isMobileIN d = true) :
    validate_phone (some d) = some ('+' :: '9' :: '1' :: d)
    ∧ validate_phone (some ('0' :: d)) = some ('+' :: '9' :: '1' :: d)
    ∧ validate_phone (some ('+' :: '9' :: '1' :: d)) = some ('+' :: '9' :: '1' :: d)
    ∧ validate_phone (some ('9' :: '1' :: d)) = some ('+' :: '9' :: '1' :: d) := by
  have h0 := h
  unfold isMobileIN at h0
  rw [Bool.and_eq_true, Bool.and_eq_true] at h0
  obtain ⟨⟨hlenb, hdig⟩, hfd⟩ := h0
  have hlen : d.length = 10 := by simpa using hlenb
  obtain ⟨c0, rest0, hd⟩ : ∃ c0 rest0, d = c0 :: rest0 := by
    cases d with
    | nil => exact absurd hlen (by decide)
    | cons a t => exact ⟨a, t, rfl⟩
  have hc0 : c0 = '6' ∨ c0 = '7' ∨ c0 = '8' ∨ c0 = '9' := by
    rw [hd] at hfd
    have hfd2 : (['6', '7', '8', '9'] : List Char).contains c0 = true := hfd
    have hm := List.elem_iff.mp hfd2
    simpa using hm
  have hc0ne : ¬ c0 = '+' := by
    rcases hc0 with h1 | h1 | h1 | h1 <;> subst h1 <;> decide
  have hc0z : (c0 == '0') = false := by
    rcases hc0 with h1 | h1 | h1 | h1 <;> subst h1 <;> decide
  have hstrip : stripZeros d = d := by
    rw [hd]
    exact stripZeros_cons_ne _ _ hc0z
  have hfil : d.filter isPhoneChar = d := all_phoneChar_of_digits d hdig
  have hvalid : isValidNN d = true := by
    unfold isValidNN
    rw [h]
    rfl
  have htype : numberTypeNN d = PhoneType.MOBILE := by
    unfold numberTypeNN
    rw [if_pos h]
  have hok : (isValidNumber ⟨91, d⟩ && typeOk ⟨91, d⟩) = true := by
    have h1 : isValidNumber ⟨91, d⟩ = true := by
      show ((91 : Nat) == 91 && isValidNN d) = true
      rw [hvalid]
      decide
    have h2 : typeOk (⟨91, d⟩ : ParsedIN) = true := by
      show validTypes.contains (numberTypeNN d) = true
      rw [htype]
      rfl
    rw [h1, h2]
    rfl
  refine ⟨?_, ?_, ?_, ?_⟩
  · have hp1 : parseIN d = some ⟨91, d⟩ := by
      rw [hd, parseIN_cons]
      rw [if_neg hc0ne]
      have hdg : (c0 :: rest0).all Char.isDigit = true := hd ▸ hdig
      rw [if_pos hdg]
      have hncond : ¬((c0 :: rest0).take 2 = ['9', '1']
          ∧ isValidNN (c0 :: rest0) = false
          ∧ isValidNN (stripZeros ((c0 :: rest0).drop 2)) = true) := by
        rintro ⟨-, hf, -⟩
        have hv2 : isValidNN (c0 :: rest0) = true := hd ▸ hvalid
        exact Bool.noConfusion (hv2.symm.trans hf)
      rw [if_neg hncond]
      rw [stripZeros_cons_ne _ _ hc0z]
    have hne1 : d.isEmpty = false := by
      rw [hd]
      rfl
    exact validate_phone_first_success d ⟨91, d⟩ hne1 hfil hp1 hok
  · have hdg0 : ('0' :: d).all Char.isDigit = true := by
      rw [List.all_cons, hdig, Bool.and_true]
      decide
    have hp2 : parseIN ('0' :: d) = some ⟨91, d⟩ := by
      rw [parseIN_cons]
      rw [if_neg (by decide : ¬ ('0' : Char) = '+')]
      rw [if_pos hdg0]
      have hncond : ¬(('0' :: d).take 2 = ['9', '1']
          ∧ isValidNN ('0' :: d) = false
          ∧ isValidNN (stripZeros (('0' :: d).drop 2)) = true) := by
        rintro ⟨htk, -, -⟩
        rw [List.take_succ_cons] at htk
        exact absurd (List.cons.inj htk).1 (by decide)
      rw [if_neg hncond]
      have hsz : stripZeros ('0' :: d) = stripZeros d := by
        simp [stripZeros]
      rw [hsz, hstrip]
    exact validate_phone_first_success ('0' :: d) ⟨91, d⟩ rfl
      (all_phoneChar_of_digits _ hdg0) hp2 hok
  · have hp3 : parseIN ('+' :: '9' :: '1' :: d) = some ⟨91, d⟩ := by
      have h1 : parseIN ('+' :: '9' :: '1' :: d)
          = (if d.all Char.isDigit = true then some ⟨91, stripZeros d⟩ else none) := rfl
      rw [h1, if_pos hdig, hstrip]
    have hfil3 : ('+' :: '9' :: '1' :: d).filter isPhoneChar = '+' :: '9' :: '1' :: d := by
      apply List.filter_eq_self.mpr
      intro a ha
      rw [List.mem_cons, List.mem_cons, List.mem_cons] at ha
      rcases ha with rfl | rfl | rfl | ha
      · decide
      · decide
      · decide
      · have hda := List.all_eq_true.mp hdig a ha
        simp [isPhoneChar, hda]
    exact validate_phone_first_success _ ⟨91, d⟩ rfl hfil3 hp3 hok
  · have hdg9 : ('9' :: '1' :: d).all Char.isDigit = true := by
      rw [List.all_cons, List.all_cons, hdig]
      decide
    have hinv : isValidNN ('9' :: '1' :: d) = false := by
      simp [isValidNN, isMobileIN, isFixedLineIN, isTollFreeIN, isPremiumRateIN, hlen]
    have hp4 : parseIN ('9' :: '1' :: d) = some ⟨91, d⟩ := by
      rw [parseIN_cons]
      rw [if_neg (by decide : ¬ ('9' : Char) = '+')]
      rw [if_pos hdg9]
      have hcond : ('9' :: '1' :: d).take 2 = ['9', '1']
          ∧ isValidNN ('9' :: '1' :: d) = false
          ∧ isValidNN (stripZeros (('9' :: '1' :: d).drop 2)) = true := by
        refine ⟨rfl, hinv, ?_⟩
        show isValidNN (stripZeros d) = true
        rw [hstrip]
        exact hvalid
      rw [if_pos hcond]
      show some (⟨91, stripZeros d⟩ : ParsedIN) = some (⟨91, d⟩ : ParsedIN)
      rw [hstrip]
    exact validate_phone_first_success _ ⟨91, d⟩ rfl
      (all_phoneChar_of_digits _ hdg9) hp4 hok

/-- Witness for C4 at the mobile number `9876543210`. -/
theorem C4_mobile_prefix_variants_agree_witness :
    isMobileIN (strL "9876543210") = true
    ∧ (validate_phone (some (strL "9876543210"))
          = some ('+' :: '9' :: '1' :: strL "9876543210")
       ∧ validate_phone (some ('0' :: strL "9876543210"))
          = some ('+' :: '9' :: '1' :: strL "9876543210")
       ∧ validate_phone (some ('+' :: '9' :: '1' :: strL "9876543210"))
          = some ('+' :: '9' :: '1' :: strL "9876543210")
       ∧ validate_phone (some ('9' :: '1' :: strL "9876543210"))
          = some ('+' :: '9' :: '1' :: strL "9876543210")) :=
  ⟨by decide, C4_mobile_prefix_variants_agree (strL "9876543210") (by decide)⟩

/-- Reduction of `parseIN` on a `+91`-prefixed candidate. -/
theorem parseIN_plus91 (X : PyStr) :
    parseIN ('+' :: '9' :: '1' :: X)
      = (if X.all Char.isDigit = true then some ⟨91, stripZeros X⟩ else none) := rfl

/-- Both candidates of `validate_phone` are rejected whenever the
first candidate parses to a number that is valid but has an excluded
line type: the second candidate re-derives the same national number
(or fails to parse altogether when the cleaned string starts with a
plus or carried a stripped country code). -/
theorem tryCandidates_two_none (C : PyStr) (p : ParsedIN)
    (hp : parseIN C = some p) (hv : isValidNumber p = true) (ht : typeOk p = false) :
    tryCandidates [C, '+' :: '9' :: '1' :: stripZeros C] = none := by
  have hnv : (isValidNumber p && typeOk p) = false := by
    rw [hv, ht]
    rfl
  have hstep1 : tryCandidates [C, '+' :: '9' :: '1' :: stripZeros C]
      = tryCandidates ['+' :: '9' :: '1' :: stripZeros C] := by
    rw [tryCandidates_cons]
    have hs : specAttempt C = none := by
      show (match parseIN C with
        | none => none
        | some q => if (isValidNumber q && typeOk q) = true
            then some (formatE164 q) else none) = none
      rw [hp]
      show (if (isValidNumber p && typeOk p) = true
          then some (formatE164 p) else none) = none
      rw [hnv, if_neg (by decide : ¬ (false = true))]
    rw [hs]
  rw [hstep1]
  cases C with
  | nil => exact absurd hp (by simp [parseIN])
  | cons c restC =>
    by_cases hcp : c = '+'
    · subst hcp
      rw [stripZeros_cons_ne '+' restC (by decide)]
      rw [tryCandidates_cons]
      have hs2 : specAttempt ('+' :: '9' :: '1' :: '+' :: restC) = none := by
        show (match parseIN ('+' :: '9' :: '1' :: '+' :: restC) with
          | none => none
          | some q => if (isValidNumber q && typeOk q) = true
              then some (formatE164 q) else none) = none
        rw [parseIN_plus91]
        have hfa : ('+' :: restC).all Char.isDigit = false := by
          rw [List.all_cons, show ('+' : Char).isDigit = false from rfl, Bool.false_and]
        rw [hfa, if_neg (by decide : ¬ (false = true))]
      rw [hs2]
      rfl
    · rw [parseIN_cons, if_neg hcp] at hp
      by_cases hdg : (c :: restC).all Char.isDigit = true
      · rw [if_pos hdg] at hp
        by_cases hcond : (c :: restC).take 2 = ['9', '1']
            ∧ isValidNN (c :: restC) = false
            ∧ isValidNN (stripZeros ((c :: restC).drop 2)) = true
        · rw [if_pos hcond] at hp
          obtain ⟨htk, hnv2, -⟩ := hcond
          have hc9 : c = '9' := by
            rw [List.take_succ_cons] at htk
            exact (List.cons.inj htk).1
          have hsz : stripZeros (c :: restC) = c :: restC := by
            apply stripZeros_cons_ne
            rw [hc9]
            decide
          rw [hsz, tryCandidates_cons]
          have hs2 : specAttempt ('+' :: '9' :: '1' :: c :: restC) = none := by
            show (match parseIN ('+' :: '9' :: '1' :: c :: restC) with
              | none => none
              | some q => if (isValidNumber q && typeOk q) = true
                  then some (formatE164 q) else none) = none
            rw [parseIN_plus91, if_pos hdg]
            show (if (isValidNumber ⟨91, stripZeros (c :: restC)⟩
                && typeOk ⟨91, stripZeros (c :: restC)⟩) = true
              then some (formatE164 ⟨91, stripZeros (c :: restC)⟩) else none) = none
            have hvn : isValidNumber ⟨91, stripZeros (c :: restC)⟩ = false := by
              show ((91 : Nat) == 91 && isValidNN (stripZeros (c :: restC))) = false
              rw [hsz, hnv2]
              rfl
            rw [hvn, Bool.false_and, if_neg (by decide : ¬ (false = true))]
          rw [hs2]
          rfl
        · rw [if_neg hcond] at hp
          have hpv : (⟨91, stripZeros (c :: restC)⟩ : ParsedIN) = p := Option.some.inj hp
          rw [tryCandidates_cons]
          have hdg2 : (stripZeros (c :: restC)).all Char.isDigit = true :=
            stripZeros_all _ _ hdg
          have hs2 : specAttempt ('+' :: '9' :: '1' :: stripZeros (c :: restC)) = none := by
            show (match parseIN ('+' :: '9' :: '1' :: stripZeros (c :: restC)) with
              | none => none
              | some q => if (isValidNumber q && typeOk q) = true
                  then some (formatE164 q) else none) = none
            rw [parseIN_plus91, if_pos hdg2, stripZeros_idem]
            show (if (isValidNumber ⟨91, stripZeros (c :: restC)⟩
                && typeOk ⟨91, stripZeros (c :: restC)⟩) = true
              then some (formatE164 ⟨91, stripZeros (c :: restC)⟩) else none) = none
            rw [hpv, hnv, if_neg (by decide : ¬ (false = true))]
          rw [hs2]
          rfl
      · rw [if_neg hdg] at hp
        exact Option.noConfusion hp

/-- C5: any raw input whose cleaned form parses to a structurally
valid number with an excluded line type (toll-free, premium-rate,
unknown) normalizes to no value. -/
theorem C5_excluded_line_type_rejected (raw : PyStr) (p : ParsedIN)
    (hp : parseIN (raw.filter isPhoneChar) = some p)
    (hv : isValidNumber p = true)
    (ht : typeOk p = false) :
    validate_phone (some raw) = none := by
  have hne : raw.isEmpty = false := by
    cases raw with
    | nil => exact absurd hp (by simp [parseIN])
    | cons a t => rfl
  unfold validate_phone
  simp only [hne, Bool.false_eq_true, if_false]
  exact tryCandidates_two_none _ p hp hv ht

/-- Witness for C5 at the toll-free number `1800 123 4567`. -/
theorem C5_excluded_line_type_rejected_witness :
    parseIN ((strL "1800 123 4567").filter isPhoneChar)
      = some ⟨91, strL "18001234567"⟩
    ∧ isValidNumber ⟨91, strL "18001234567"⟩ = true
    ∧ typeOk ⟨91, strL "18001234567"⟩ = false
    ∧ validate_phone (some (strL "1800 123 4567")) = none :=
  ⟨by decide, by decide, by decide,
    C5_excluded_line_type_rejected (strL "1800 123 4567") ⟨91, strL "18001234567"⟩
      (by decide) (by decide) (by decide)⟩
